import Mathlib

/-!
Verification of the real-time processing core of rmsc-rs (`src/lib.rs`).

The embedding models the sample math over `ℚ` (the Rust code computes with
`f32`; exact rational arithmetic is the idealized semantics of the same
expressions), and uses `ℝ` only for the one transcendental expression, the
`powf` call in the sample-rate initialization hook.

Buffers are lists of frames, a frame being the list of channel samples at one
sample instant, matching `Buffer::iter_samples`. The gain smoother lives in
the nih_plug library, outside this repository's sources; successive calls of
`self.params.gain.smoothed.next()` are modelled as a sequence `gains : ℕ → ℚ`
indexed by frame number. The editor-open flag read from
`self.params.editor_state.is_open()` is external UI state, modelled as a
boolean argument held fixed for the duration of one `process` call.
-/

namespace RMSC

/-- `PEAK_METER_DECAY_MS` (lib.rs line 6): the time it takes for the peak
meter to decay by 12 dB after switching to complete silence. -/
def PEAK_METER_DECAY_MS : ℚ := 150

/-- `nih_plug::util::MINUS_INFINITY_DB` (= -100.0), the constant both meter
cells are initialized with in `Default for RingModSideChain`
(lib.rs lines 46-47). -/
def MINUS_INFINITY_DB : ℚ := -100

/-- The host-facing result status of a `process` call
(`nih_plug::prelude::ProcessStatus`; the `Error` variant carries a static
message in Rust, irrelevant here). -/
inductive ProcessStatus where
  | Error
  | Normal
  | Tail (samples : ℕ)
  | KeepAlive
  deriving DecidableEq

/-- The audio-thread state of the plugin (lib.rs lines 8-20): the decay
weight derived from the sample rate, and the two atomic meter cells
(modelled by their current contents; each cell has a single writer, the
audio thread, so a `process` call sees its own prior stores). -/
structure RingModSideChain where
  peak_meter_decay_weight : ℚ
  peak_meter : ℚ
  side_chain_peak_meter : ℚ

/-- `Default for RingModSideChain` (lib.rs lines 40-50): decay weight 1.0,
both meters set to `util::MINUS_INFINITY_DB`. -/
def default_ring_mod_side_chain : RingModSideChain where
  peak_meter_decay_weight := 1
  peak_meter := MINUS_INFINITY_DB
  side_chain_peak_meter := MINUS_INFINITY_DB

/-- The sample-rate hook of `impl Plugin` (lib.rs lines 178-191; its Rust
name is a banned identifier here, hence `init_plugin`): computes the new
`peak_meter_decay_weight` as `0.25 ^ ((sample_rate * PEAK_METER_DECAY_MS /
1000).recip())` and returns `true`. Over `ℝ` because of `powf`. -/
noncomputable def init_plugin (sample_rate : ℝ) : ℝ × Bool :=
  ((0.25 : ℝ) ^ ((sample_rate * ((PEAK_METER_DECAY_MS : ℚ) : ℝ) / 1000)⁻¹), true)

/-- The frame loop of `Plugin::process` (lib.rs lines 204-229), threading the
peak-meter cell contents: for each frame, take the next smoothed gain,
multiply every channel sample by it, sum the post-gain samples into
`amplitude`, and, when the editor is open, store the new meter value computed
from the frame mean amplitude (lines 216-228). Returns the rewritten frames
and the final meter contents. -/
def process_frames (gains : ℕ → ℚ) (is_open : Bool) (w : ℚ) :
    ℕ → List (List ℚ) → ℚ → List (List ℚ) × ℚ
  | _, [], meter => ([], meter)
  | i, frame :: rest, meter =>
    let num_samples := frame.length
    let gain := gains i
    let frame2 := frame.map (fun s => s * gain)
    let amplitude := frame2.sum
    let meter2 :=
      if is_open then
        let a := |amplitude / (num_samples : ℚ)|
        if a > meter then a
        else meter * w + a * (1 - w)
      else meter
    let r := process_frames gains is_open w (i + 1) rest meter2
    (frame2 :: r.1, r.2)

/-- Result of one `process` call: the rewritten main buffer, the auxiliary
(side-chain) buffers, the contents of both meter cells afterwards, and the
returned status. -/
structure ProcessResult where
  buffer : List (List ℚ)
  aux : List (List ℚ)
  peak_meter : ℚ
  side_chain_peak_meter : ℚ
  status : ProcessStatus

/-- `Plugin::process` (lib.rs lines 198-232). The `_aux` argument is unused
in the source, so the auxiliary buffers pass through unchanged; nothing calls
`side_chain_gain.smoothed.next()` (`side_gains` is the sequence it would
yield) and nothing stores to `side_chain_peak_meter`. Always returns
`ProcessStatus::Normal`. -/
def process (s : RingModSideChain) (is_open : Bool)
    (gains _side_gains : ℕ → ℚ) (buffer aux : List (List ℚ)) : ProcessResult :=
  let r := process_frames gains is_open s.peak_meter_decay_weight 0 buffer s.peak_meter
  { buffer := r.1
    aux := aux
    peak_meter := r.2
    side_chain_peak_meter := s.side_chain_peak_meter
    status := ProcessStatus.Normal }

/-- `RingModSideChain::update_peak_meter` (lib.rs lines 237-248), as the value
it stores into the given meter cell: normalize the accumulator by the sample
count, take the absolute value, then instant attack or weighted decay with
`self.peak_meter_decay_weight`. -/
def RingModSideChain.update_peak_meter (s : RingModSideChain)
    (amplitude : ℚ) (num_samples : ℕ) (meter : ℚ) : ℚ :=
  let a := |amplitude / (num_samples : ℚ)|
  if a > meter then a
  else meter * s.peak_meter_decay_weight + a * (1 - s.peak_meter_decay_weight)

/-- The meter update rule of lib.rs lines 219-224, abstracted over the
already-normalized amplitude `a = |accumulator / num_samples|`, the current
meter contents `c` and the decay weight `w`. -/
def peak_update (a c w : ℚ) : ℚ :=
  if a > c then a else c * w + a * (1 - w)

/-- Modelled from the spec: the running amplitude accumulator over all frames
of a block, each frame contributing the sum of its post-gain channel
samples. -/
def block_accumulator (gains : ℕ → ℚ) : ℕ → List (List ℚ) → ℚ
  | _, [] => 0
  | i, f :: rest => (f.map (fun s => s * gains i)).sum + block_accumulator gains (i + 1) rest

/-- Modelled from the spec's words for comparison with the code: a single
meter update performed after the whole block, fed the block mean amplitude
(the accumulator over all frames divided by the frame count, absolute value
taken). -/
def spec_block_meter (gains : ℕ → ℚ) (w : ℚ) (frames : List (List ℚ)) (meter : ℚ) : ℚ :=
  peak_update (|block_accumulator gains 0 frames / (frames.length : ℚ)|) meter w

/-- The meter-only projection of the frame loop: one `peak_update` per frame,
fed that frame's mean channel amplitude (post-gain frame sum over channel
count, absolute value taken). -/
def frame_meter (gains : ℕ → ℚ) (w : ℚ) : ℕ → List (List ℚ) → ℚ → ℚ
  | _, [], m => m
  | i, f :: rest, m =>
    frame_meter gains w (i + 1) rest
      (peak_update (|(f.map (fun s => s * gains i)).sum / (f.length : ℚ)|) m w)

/-- The gain-application part of the frame loop (lib.rs lines 208-212) in
isolation: frame `i` is mapped through multiplication by `gains i`. -/
def apply_gains (gains : ℕ → ℚ) : ℕ → List (List ℚ) → List (List ℚ)
  | _, [] => []
  | i, f :: rest => f.map (fun s => s * gains i) :: apply_gains gains (i + 1) rest

/-! ### Helper lemmas -/

/-- The buffer produced by the frame loop is exactly the gains applied
frame-wise; it does not depend on the metering state. -/
theorem process_frames_fst (g : ℕ → ℚ) (o : Bool) (w : ℚ) :
    ∀ (b : List (List ℚ)) (i : ℕ) (m : ℚ),
      (process_frames g o w i b m).1 = apply_gains g i b := by
  intro b
  induction b with
  | nil => intro i m; rfl
  | cons f rest ih =>
      intro i m
      simp only [process_frames, apply_gains]
      exact congrArg _ (ih _ _)

/-- With the editor closed, the frame loop never stores to the meter. -/
theorem process_frames_closed_meter (g : ℕ → ℚ) (w : ℚ) :
    ∀ (b : List (List ℚ)) (i : ℕ) (m : ℚ),
      (process_frames g false w i b m).2 = m := by
  intro b
  induction b with
  | nil => intro i m; rfl
  | cons f rest ih =>
      intro i m
      simp only [process_frames, Bool.false_eq_true, if_false]
      exact ih _ _

/-- With the editor open, the meter produced by the frame loop is the
per-frame fold of the update rule. -/
theorem process_frames_open_meter (g : ℕ → ℚ) (w : ℚ) :
    ∀ (b : List (List ℚ)) (i : ℕ) (m : ℚ),
      (process_frames g true w i b m).2 = frame_meter g w i b m := by
  intro b
  induction b with
  | nil => intro i m; rfl
  | cons f rest ih =>
      intro i m
      simp only [process_frames, frame_meter, peak_update, if_true, List.length_map]
      exact ih _ _

/-- Applying an identically-1 gain sequence leaves every frame unchanged. -/
theorem apply_gains_one (g : ℕ → ℚ) (hg : ∀ i, g i = 1) :
    ∀ (b : List (List ℚ)) (i : ℕ), apply_gains g i b = b := by
  intro b
  induction b with
  | nil => intro i; rfl
  | cons f rest ih =>
      intro i
      simp only [apply_gains, hg, mul_one, List.map_id', ih]

/-! ### Claims -/

/-- C1, counterexample: with the editor open, a nonempty auxiliary block and
a side-chain gain sequence of 1/2, `process` leaves the auxiliary samples
unscaled (so they differ from the claimed side-chain-gain product) and leaves
the side-chain peak meter exactly at its prior contents. -/
theorem aux_not_processed_cex :
    (process ⟨1/2, 0, 5⟩ true (fun _ => 1) (fun _ => 1/2) [[1]] [[2, 2]]).aux ≠
        [[2 * (1/2 : ℚ), 2 * (1/2 : ℚ)]] ∧
    (process ⟨1/2, 0, 5⟩ true (fun _ => 1) (fun _ => 1/2) [[1]] [[2, 2]]).side_chain_peak_meter
        = 5 := by
  refine ⟨?_, rfl⟩
  norm_num [process]

/-- C1, amended: `process` ignores the auxiliary channels entirely — the
auxiliary buffers pass through unchanged and the side-chain peak meter is
never written, whatever the metering flag, gains and buffers are. -/
theorem process_ignores_aux (s : RingModSideChain) (o : Bool) (g sg : ℕ → ℚ)
    (b a : List (List ℚ)) :
    (process s o g sg b a).aux = a ∧
    (process s o g sg b a).side_chain_peak_meter = s.side_chain_peak_meter :=
  ⟨rfl, rfl⟩

/-- C2, counterexample: at amplitude 1, current value 2 and decay weight 1/2
(so a ≤ c), the stored value is 2·(1/2) + 1·(1/2) = 3/2, not the claimed
c·decay_weight = 1: the stored value does depend on the amplitude. -/
theorem decay_rule_not_pure_decay_cex :
    (1 : ℚ) ≤ 2 ∧ peak_update 1 2 (1/2) ≠ 2 * (1/2) := by
  norm_num [peak_update]

/-- C2, amended: when the new amplitude does not exceed the current estimate,
the stored value is the convex combination `c * w + a * (1 - w)`, which
decays toward the amplitude, and coincides with `c * w` when `a = 0`. -/
theorem decay_rule_weighted_average (a c w : ℚ) (h : a ≤ c) :
    peak_update a c w = c * w + a * (1 - w) ∧ (a = 0 → peak_update a c w = c * w) := by
  have hbranch : peak_update a c w = c * w + a * (1 - w) := by
    unfold peak_update
    rw [if_neg (not_lt.mpr h)]
  refine ⟨hbranch, fun ha => ?_⟩
  rw [hbranch, ha]
  ring

/-- C2 witness: the amended rule at a = 1, c = 2, w = 1/2. -/
theorem decay_rule_weighted_average_witness :
    peak_update 1 2 (1/2) = 2 * (1/2 : ℚ) + 1 * (1 - 1/2) ∧
    ((1 : ℚ) = 0 → peak_update 1 2 (1/2) = 2 * (1/2)) :=
  decay_rule_weighted_average 1 2 (1/2) (by norm_num)

/-- C3, counterexample: on the two-frame block [[0], [4]] with unit gains,
decay weight 1/2 and meter at 0, the code's meter ends at 4 (one update per
frame), while a single post-block update with the block mean amplitude
|(0+4)/2| = 2 would end at 2. -/
theorem meter_once_per_block_cex :
    (process ⟨1/2, 0, 0⟩ true (fun _ => 1) (fun _ => 1) [[0], [4]] []).peak_meter ≠
      spec_block_meter (fun _ => 1) (1/2) [[0], [4]] 0 := by
  norm_num [process, process_frames, spec_block_meter, block_accumulator, peak_update,
    abs_of_nonneg]

/-- C3, amended: when metering is active, the peak meter is updated once per
frame, not once per block: the value after `process` is the per-frame fold of
the update rule, each step fed that frame's mean channel amplitude (the
frame's post-gain sum over its channel count, absolute value taken). -/
theorem meter_once_per_frame (s : RingModSideChain) (g sg : ℕ → ℚ)
    (b a : List (List ℚ)) :
    (process s true g sg b a).peak_meter =
      frame_meter g s.peak_meter_decay_weight 0 b s.peak_meter :=
  process_frames_open_meter g s.peak_meter_decay_weight b 0 s.peak_meter

/-- C4: the claim is right and the code is wrong. At construction both meter
cells hold `util::MINUS_INFINITY_DB` = -100.0 — a decibel constant stored in
a cell the source documents as holding linear voltage gain — so `load()`
observes a negative value before any `process` call (and keeps observing it
while metering stays inactive). -/
theorem default_meter_negative :
    default_ring_mod_side_chain.peak_meter < 0 ∧
    default_ring_mod_side_chain.side_chain_peak_meter < 0 := by
  norm_num [default_ring_mod_side_chain, MINUS_INFINITY_DB]

/-- C5: instant attack — whenever the normalized amplitude exceeds the
current meter contents, the stored value is that amplitude exactly. -/
theorem instant_attack (a c w : ℚ) (h : c < a) : peak_update a c w = a := by
  unfold peak_update
  rw [if_pos h]

/-- C5 witness: instant attack at a = 3, c = 1, w = 1/2. -/
theorem instant_attack_witness : peak_update 3 1 (1/2) = 3 :=
  instant_attack 3 1 (1/2) (by norm_num)

/-- C6: for every sample rate, the sample-rate hook sets the decay weight to
0.25 raised to the power 1 / (sample_rate · 150 / 1000), and returns true. -/
theorem init_decay_weight_formula (sr : ℝ) :
    (init_plugin sr).1 = (0.25 : ℝ) ^ (1 / (sr * 150 / 1000)) ∧
    (init_plugin sr).2 = true := by
  refine ⟨?_, rfl⟩
  simp [init_plugin, PEAK_METER_DECAY_MS, one_div]

/-- C7: with the metering flag inactive, `process` performs no store to
either meter: both cells hold exactly their pre-call contents afterwards. -/
theorem metering_inactive_meter_unchanged (s : RingModSideChain) (g sg : ℕ → ℚ)
    (b a : List (List ℚ)) :
    (process s false g sg b a).peak_meter = s.peak_meter ∧
    (process s false g sg b a).side_chain_peak_meter = s.side_chain_peak_meter :=
  ⟨process_frames_closed_meter g s.peak_meter_decay_weight b 0 s.peak_meter, rfl⟩

/-- C8: `process` rewrites the buffer by multiplying every channel sample of
frame i by the one smoothed gain value obtained for that frame, with no
clamping (the map is exact multiplication), and always returns the
normal-continuation status; when the gain smoother is converged at linear
1.0 the output equals the input. -/
theorem gain_applied_per_frame (s : RingModSideChain) (o : Bool) (g sg : ℕ → ℚ)
    (b a : List (List ℚ)) :
    (process s o g sg b a).buffer = apply_gains g 0 b ∧
    (process s o g sg b a).status = ProcessStatus.Normal ∧
    ((∀ i, g i = 1) → (process s o g sg b a).buffer = b) := by
  have hb : (process s o g sg b a).buffer = apply_gains g 0 b :=
    process_frames_fst g o s.peak_meter_decay_weight b 0 s.peak_meter
  exact ⟨hb, rfl, fun hg => hb.trans (apply_gains_one g hg b 0)⟩

/-- C8 witness: a converged 0 dB gain passes the block [[1/2, -1/2]] through
unchanged, and the status is Normal. -/
theorem gain_applied_per_frame_witness :
    (process default_ring_mod_side_chain true (fun _ => 1) (fun _ => 1)
        [[1/2, -1/2]] []).buffer = [[1/2, -1/2]] ∧
    (process default_ring_mod_side_chain true (fun _ => 1) (fun _ => 1)
        [[1/2, -1/2]] []).status = ProcessStatus.Normal :=
  ⟨(gain_applied_per_frame default_ring_mod_side_chain true (fun _ => 1) (fun _ => 1)
      [[1/2, -1/2]] []).2.2 (fun _ => rfl),
   (gain_applied_per_frame default_ring_mod_side_chain true (fun _ => 1) (fun _ => 1)
      [[1/2, -1/2]] []).2.1⟩

/-- C9: the helper `update_peak_meter` is behaviorally equivalent to the
inline meter code of the frame loop — stepping the loop over one frame with
metering active stores exactly the value the helper computes from the same
post-gain accumulator, channel count, decay weight and prior meter value. -/
theorem update_peak_meter_matches_inline (s : RingModSideChain) (g : ℕ → ℚ)
    (i : ℕ) (f : List ℚ) (rest : List (List ℚ)) (m : ℚ) :
    (process_frames g true s.peak_meter_decay_weight i (f :: rest) m).2 =
      (process_frames g true s.peak_meter_decay_weight (i + 1) rest
        (s.update_peak_meter ((f.map (fun x => x * g i)).sum) f.length m)).2 := by
  simp only [process_frames, RingModSideChain.update_peak_meter, if_true, List.length_map]

/-- C10: the meter-update step preserves non-negativity: from a non-negative
current value and a non-negative amplitude, with the decay weight in [0, 1],
the stored value is non-negative. -/
theorem peak_update_nonneg (a c w : ℚ) (ha : 0 ≤ a) (hc : 0 ≤ c)
    (hw0 : 0 ≤ w) (hw1 : w ≤ 1) : 0 ≤ peak_update a c w := by
  unfold peak_update
  split
  · exact ha
  · have h1 : 0 ≤ c * w := mul_nonneg hc hw0
    have h2 : 0 ≤ a * (1 - w) := mul_nonneg ha (by linarith)
    linarith

/-- C10 witness: non-negativity of the update at a = 2, c = 3, w = 1/3. -/
theorem peak_update_nonneg_witness :
    (0 : ℚ) ≤ 2 ∧ 0 ≤ peak_update 2 3 (1/3) :=
  ⟨by norm_num,
   peak_update_nonneg 2 3 (1/3) (by norm_num) (by norm_num) (by norm_num) (by norm_num)⟩

end RMSC
